import Mathlib

/-!
Verification of the collection orchestrator of the `postgres` module
(`modules/postgres/collect.go`).

The Go source is shallowly embedded: the per-cycle entry point `collect`
becomes a pure function from the orchestrator state, the current time and
the database's responses for this cycle to the resulting state, snapshot,
error and emitted chart add/remove notifications.  `map[string]int64` is
modelled as an association list with Go map semantics (missing keys read
as `0`, `int64` arithmetic wraps), `sql.Rows` results are modelled as the
flattened stream of `(column, value)` cells that `collectRows` hands to
the `assign` callbacks, and each query's outcome is an `Option` (with
`none` standing for a scan/query error).
-/

set_option autoImplicit false

namespace Postgres

/-! ## Numeric parsing (`strconv`) -/

/-- Error kind of Go's `strconv.ParseInt`: a malformed literal (`ErrSyntax`)
or an out-of-range literal (`ErrRange`). -/
inductive ParseErr where
  | bad
  | range
deriving DecidableEq, Repr

/-- Value of a list of decimal digit characters. -/
def digitsToNat (ds : List Char) : Nat :=
  ds.foldl (fun n d => 10 * n + (d.toNat - 48)) 0

/-- Shallow embedding of Go `strconv.ParseInt(s, 10, 64)`: an optional
leading sign followed by at least one decimal digit; a malformed literal
yields `(0, ErrSyntax)`; an out-of-range literal is clamped to the
`int64` bound and flagged `ErrRange` (first clamped to the `uint64`
bound inside `ParseUint`, then to the signed cutoff). -/
def goParseInt64 (s : String) : Int × Option ParseErr :=
  match s.toList with
  | [] => (0, some .bad)
  | c :: cs =>
    let neg := c = '-'
    let ds := if c = '-' ∨ c = '+' then cs else c :: cs
    if ds.isEmpty || !ds.all Char.isDigit then (0, some .bad)
    else
      let n : Int := Int.ofNat (min (digitsToNat ds) (2 ^ 64 - 1))
      if neg then
        if n > 2 ^ 63 then (-(2 ^ 63), some .range) else (-n, none)
      else
        if n ≥ 2 ^ 63 then (2 ^ 63 - 1, some .range) else (n, none)

/-- Embedding of `safeParseInt`: `v, _ := strconv.ParseInt(s, 10, 64)`,
the error is discarded and the value returned. -/
def safeParseInt (s : String) : Int :=
  (goParseInt64 s).1

/-- Embedding of Go `strconv.Atoi` as used by `queryServerVersion`: the
parsed value on success, `none` on any parse error (the caller treats the
error as fatal for the cycle). -/
def goAtoi (s : String) : Option Int :=
  match goParseInt64 s with
  | (v, none) => some v
  | _ => none

/-- Syntactic well-formedness of a base-10 integer literal as accepted by
`strconv.ParseInt(s, 10, 64)`: an optional sign followed by at least one
decimal digit.  Strings failing this test are exactly the ones `ParseInt`
rejects with `ErrSyntax` (and value `0`). -/
def isValidInt64Literal (s : String) : Bool :=
  match s.toList with
  | [] => false
  | c :: cs =>
    let ds := if c = '-' ∨ c = '+' then cs else c :: cs
    !ds.isEmpty && ds.all Char.isDigit

/-- Modelled from the spec: `collectUptime` parses its scalar with
`strconv.ParseFloat(s, 64)` and truncates with `int64(v)`; floating-point
semantics are outside the embedding, so this models the composition for
plain decimal literals (optional sign, digits, optional fractional part):
truncation toward zero of the literal's value, `0` on a parse failure
(the source discards the parse error). -/
def parseFloatTruncInt (s : String) : Int :=
  match s.toList with
  | [] => 0
  | c :: cs =>
    let neg := c = '-'
    let ds := if c = '-' ∨ c = '+' then cs else c :: cs
    let intPart := ds.takeWhile (· ≠ '.')
    let rest := ds.dropWhile (· ≠ '.')
    let fracPart := rest.drop 1
    if ds.isEmpty || !intPart.all Char.isDigit || !fracPart.all Char.isDigit
        || (intPart.isEmpty && fracPart.isEmpty) then 0
    else
      let v : Int := Int.ofNat (digitsToNat intPart)
      if neg then -v else v

/-- Wrap-around of Go `int64` arithmetic. -/
def wrap64 (x : Int) : Int :=
  (x + 2 ^ 63) % 2 ^ 64 - 2 ^ 63

/-! ## The metrics snapshot (`map[string]int64`) -/

/-- The metrics snapshot `mx : map[string]int64`, as an association list
with unique keys (insertion order kept). -/
abbrev Mx := List (String × Int)

/-- Map read: the value stored at `k`, if present. -/
def mxLookup : Mx → String → Option Int
  | [], _ => none
  | (k', v') :: rest, k => if k' = k then some v' else mxLookup rest k

/-- Go map assignment `mx[k] = v`: replaces in place, appends when absent. -/
def mxSet : Mx → String → Int → Mx
  | [], k, v => [(k, v)]
  | (k', v') :: rest, k, v =>
    if k' = k then (k, v) :: rest else (k', v') :: mxSet rest k v

/-- Go map read `mx[k]` in an expression: `0` for a missing key. -/
def mxGet (m : Mx) (k : String) : Int :=
  (mxLookup m k).getD 0

/-- Go `mx[k] += v` on an `int64` map: read-with-default, add with
`int64` wrap-around, store. -/
def mxAdd (m : Mx) (k : String) (v : Int) : Mx :=
  mxSet m k (wrap64 (mxGet m k + v))

/-! ## Row scanning (`collectRows`, `valueToString`) -/

/-- One `(column, value)` pair as handed to an `assign` callback by
`collectRows`. -/
abbrev Cell := String × String

/-- A scanned result cell before conversion: `makeNullStrings` scans every
column into a `*sql.NullString`; `other` stands for any value that is not
a `*sql.NullString` (the defensive `!ok` branch of `valueToString`). -/
inductive SqlValue where
  | nullString (valid : Bool) (s : String)
  | other
deriving DecidableEq, Repr

/-- Embedding of `valueToString`: a valid `sql.NullString` yields its
string, anything else (an invalid/NULL `NullString`, or a value of
another type) yields the empty string. -/
def valueToString : SqlValue → String
  | .nullString true s => s
  | .nullString false _ => ""
  | .other => ""

/-- Whether a scanned value is a valid (non-NULL) `sql.NullString`. -/
def isValidNullString : SqlValue → Bool
  | .nullString true _ => true
  | _ => false

/-- Embedding of the loop body of `collectRows`: for each row, `assign`
receives `(columns[i], valueToString(values[i]))` for every column in
order; the result is the flattened cell stream the fold callbacks see. -/
def rowsToCells (columns : List String) (rows : List (List SqlValue)) : List Cell :=
  rows.flatMap (fun r => columns.zip (r.map valueToString))

/-! ## Specification-side list helper -/

/-- Specification-side statement of "each element at most once, in order
of first occurrence": keep the head and drop its later duplicates. -/
def firstOccurrences : List String → List String
  | [] => []
  | a :: as => a :: firstOccurrences (as.filter (· ≠ a))
termination_by l => l.length
decreasing_by
  simp only [List.length_cons]
  exact Nat.lt_succ_of_le (List.length_filter_le _ _)

/-! ## Orchestrator state, stages, events -/

/-- The logical stage of the cycle a query/step belongs to; errors are
returned wrapped with a message naming this stage (`fmt.Errorf` at each
`return` site of `collect`). -/
inductive Stage where
  | openConn
  | serverVersion
  | settings
  | databaseList
  | standbyList
  | connection
  | checkpoints
  | uptime
  | txidWraparound
  | walWrites
  | walFiles
  | walArchiveFiles
  | catalog
  | autovacuumWorkers
  | replStandbyAppDelta
  | replStandbyAppLag
  | databaseStats
  | databaseConflicts
  | databaseLocks
deriving DecidableEq, Repr

/-- A chart lifecycle notification delivered to the presentation layer:
`addNewReplicationStandbyAppCharts` / `removeReplicationStandbyAppCharts`. -/
inductive AppEvent where
  | added (name : String)
  | removed (name : String)
deriving DecidableEq, Repr

/-- One metadata refresh window of the orchestrator. -/
inductive Window where
  | settings
  | databaseList
  | standbyList
deriving DecidableEq, Repr

/-- The query stage fired by a refresh window. -/
def Window.stage : Window → Stage
  | .settings => .settings
  | .databaseList => .databaseList
  | .standbyList => .standbyList

/-- The mutable fields of the `Postgres` receiver read or written by
`collect` (times are instants on an abstract integer clock, durations are
the configured intervals on the same clock). -/
structure PgState where
  dbOpen : Bool
  serverVersion : Int
  maxConnections : Int
  recheckSettingsTime : Int
  recheckSettingsEvery : Int
  relistDatabaseTime : Int
  relistDatabaseEvery : Int
  relistStandbyTime : Int
  relistStandbyEvery : Int
  databases : List String
  standbyApps : List String
deriving DecidableEq, Repr

/-- The lastRun timestamp of a refresh window. -/
def Window.lastRun : Window → PgState → Int
  | .settings, p => p.recheckSettingsTime
  | .databaseList, p => p.relistDatabaseTime
  | .standbyList, p => p.relistStandbyTime

/-- The database server's responses for one cycle: for every query the
cycle may issue, either the scanned result (`some`) or a query/scan error
(`none`).  Row-shaped results are given as the flattened `(column,
value)` cell stream of `collectRows`. -/
structure DbResponses where
  openConn : Bool
  serverVersion : Option String
  settingsMaxConnections : Option String
  databaseList : Option (List String)
  standbyList : Option (List Cell)
  connection : Option (List Cell)
  checkpoints : Option (List Cell)
  uptime : Option String
  txidWraparound : Option (List Cell)
  walWrites : Option Int
  walFiles : Option (List Cell)
  walArchiveFiles : Option (List Cell)
  catalog : Option (List Cell)
  autovacuumWorkers : Option (List Cell)
  replStandbyAppDelta : Option (List Cell)
  replStandbyAppLag : Option (List Cell)
  databaseStats : Option (List Cell)
  databaseConflicts : Option (List Cell)
  databaseLocks : Option (List Cell)
deriving DecidableEq, Repr

/-! ## The individual collectors -/

/-- The fold `mx[column] = safeParseInt(value)` shared by
`collectTXIDWraparound`, `collectWALFiles`, `collectWALArchiveFiles` and
`collectAutovacuumWorkers`. -/
def foldColumnValues (mx : Mx) (cells : List Cell) : Mx :=
  cells.foldl (fun m cv => mxSet m cv.1 (safeParseInt cv.2)) mx

/-- Modelled from the spec: the body of `collectConnection` is not under
`src/`; per the MetricCollector policy it folds its query's rows into the
snapshot, modelled with the overwrite fold used by the sibling collectors
in the source. -/
def collectConnection (mx : Mx) (cells : List Cell) : Mx :=
  foldColumnValues mx cells

/-- Modelled from the spec: the body of `collectCheckpoints` is not under
`src/`; modelled like `collectConnection`. -/
def collectCheckpoints (mx : Mx) (cells : List Cell) : Mx :=
  foldColumnValues mx cells

/-- Embedding of `collectUptime`: scalar string scanned, parsed with
`ParseFloat` (error discarded), truncated, stored at `"server_uptime"`. -/
def collectUptime (mx : Mx) (s : String) : Mx :=
  mxSet mx "server_uptime" (parseFloatTruncInt s)

/-- Embedding of the fold of `collectTXIDWraparound`. -/
def collectTXIDWraparound (mx : Mx) (cells : List Cell) : Mx :=
  foldColumnValues mx cells

/-- Embedding of `collectWALWrites`: scalar `int64` scanned directly and
stored at `"wal_writes"`. -/
def collectWALWrites (mx : Mx) (v : Int) : Mx :=
  mxSet mx "wal_writes" v

/-- Embedding of the fold of `collectWALFiles`. -/
def collectWALFiles (mx : Mx) (cells : List Cell) : Mx :=
  foldColumnValues mx cells

/-- Embedding of the fold of `collectWALArchiveFiles`. -/
def collectWALArchiveFiles (mx : Mx) (cells : List Cell) : Mx :=
  foldColumnValues mx cells

/-- The ten relation kinds enumerated in `collectCatalog`. -/
def catalogKinds : List String :=
  ["r", "i", "S", "t", "v", "m", "c", "f", "p", "I"]

/-- The pre-seeding loop of `collectCatalog`: every known relation kind's
count and size keys are set to `0`. -/
def seedCatalog (mx : Mx) : Mx :=
  catalogKinds.foldl
    (fun m k =>
      mxSet (mxSet m ("catalog_relkind_" ++ k ++ "_count") 0)
        ("catalog_relkind_" ++ k ++ "_size") 0)
    mx

/-- The `assign` callback of `collectCatalog`: a `"relkind"` cell updates
the running kind, any other cell overwrites
`mx["catalog_relkind_" + kind + "_" + column]`. -/
def catalogAssign (acc : Mx × String) (cv : Cell) : Mx × String :=
  if cv.1 = "relkind" then (acc.1, cv.2)
  else (mxSet acc.1 ("catalog_relkind_" ++ acc.2 ++ "_" ++ cv.1) (safeParseInt cv.2), acc.2)

/-- Embedding of `collectCatalog`: pre-seed, then fold the rows in. -/
def collectCatalog (mx : Mx) (cells : List Cell) : Mx :=
  (cells.foldl catalogAssign (seedCatalog mx, "")).1

/-- Embedding of the fold of `collectAutovacuumWorkers`. -/
def collectAutovacuumWorkers (mx : Mx) (cells : List Cell) : Mx :=
  foldColumnValues mx cells

/-- The `assign` callback of `queryStandbyAppList`: collect an
`application_name` value not seen before (the `seen` map is marked
exactly when a name is appended, so it coincides with membership in the
accumulated list). -/
def standbyAssign (apps : List String) (cv : Cell) : List String :=
  if cv.1 = "application_name" ∧ cv.2 ∉ apps then apps ++ [cv.2] else apps

/-- Embedding of the fold of `queryStandbyAppList`. -/
def queryStandbyAppList (cells : List Cell) : List String :=
  cells.foldl standbyAssign []

/-- The `application_name` values of a cell stream, in order. -/
def appNameValues (cells : List Cell) : List String :=
  cells.filterMap (fun cv => if cv.1 = "application_name" then some cv.2 else none)

/-- The add pass of `collectStandbyAppList`: a name already in the
`collected` set is skipped, a new one is inserted and emits a chart
addition. -/
def standbyDiffStep (acc : List String × List String) (app : String) :
    List String × List String :=
  if app ∈ acc.1 then acc else (acc.1 ++ [app], acc.2 ++ [app])

/-- Embedding of `collectStandbyAppList`: an empty fetched list returns
immediately; otherwise the tracked set is replaced, names of the new list
not in the old `collected` set emit `added` (in list order, first
occurrences only), and names of the old set absent from the new list emit
`removed`.  The `collected` map built from the old slice is modelled as
its list of first occurrences (one entry per distinct key; Go's map
iteration order is unspecified, the model fixes insertion order). -/
def collectStandbyAppList (p : PgState) (apps : List String) : PgState × List AppEvent :=
  if apps = [] then (p, [])
  else
    let folded := apps.foldl standbyDiffStep (firstOccurrences p.standbyApps, [])
    let removes := folded.1.filter (fun a => a ∉ apps)
    ({ p with standbyApps := apps },
      folded.2.map AppEvent.added ++ removes.map AppEvent.removed)

/-- Modelled from the spec: the body of `collectDatabaseList` is not
under `src/`; per the data model the tracked database set is replaced
wholesale on each refresh of its window. -/
def collectDatabaseList (p : PgState) (dbs : List String) : PgState :=
  { p with databases := dbs }

/-- The `assign` callback shared by the two replication collectors: an
`application_name` cell updates the running application, any other cell
accumulates into `mx["repl_standby_app_" + app + "_wal_" + column]`. -/
def replAssign (acc : Mx × String) (cv : Cell) : Mx × String :=
  if cv.1 = "application_name" then (acc.1, cv.2)
  else (mxAdd acc.1 ("repl_standby_app_" ++ acc.2 ++ "_wal_" ++ cv.1) (safeParseInt cv.2), acc.2)

/-- Embedding of the fold of `collectReplicationStandbyAppWALDelta`. -/
def collectReplicationStandbyAppWALDelta (mx : Mx) (cells : List Cell) : Mx :=
  (cells.foldl replAssign (mx, "")).1

/-- Embedding of the fold of `collectReplicationStandbyAppWALLag`, the
same accumulating fold as the delta collector. -/
def collectReplicationStandbyAppWALLag (mx : Mx) (cells : List Cell) : Mx :=
  (cells.foldl replAssign (mx, "")).1

/-- Modelled from the spec: the body of `collectDatabaseStats` is not
under `src/`; per the MetricCollector policy it is a keyed expansion over
the database dimension with the default overwrite merge (a `datname`
cell updates the running database, other cells overwrite
`mx["db_" + db + "_" + column]`). -/
def dbStatsAssign (acc : Mx × String) (cv : Cell) : Mx × String :=
  if cv.1 = "datname" then (acc.1, cv.2)
  else (mxSet acc.1 ("db_" ++ acc.2 ++ "_" ++ cv.1) (safeParseInt cv.2), acc.2)

/-- Modelled from the spec: the fold of `collectDatabaseStats` over the
`dbStatsAssign` callback. -/
def collectDatabaseStats (mx : Mx) (cells : List Cell) : Mx :=
  (cells.foldl dbStatsAssign (mx, "")).1

/-- Modelled from the spec: the body of `collectDatabaseConflicts` is not
under `src/`; modelled like `collectDatabaseStats`. -/
def collectDatabaseConflicts (mx : Mx) (cells : List Cell) : Mx :=
  collectDatabaseStats mx cells

/-- Modelled from the spec: the body of `collectDatabaseLocks` is not
under `src/`; modelled like `collectDatabaseStats`. -/
def collectDatabaseLocks (mx : Mx) (cells : List Cell) : Mx :=
  collectDatabaseStats mx cells

/-! ## The metrics phase of `collect` (after `mx` is created) -/

/-- Running outcome of the metric-collection sequence: the snapshot so
far, the first error (which short-circuits everything after it, matching
the early `return mx, err` statements), and the queries executed. -/
structure MetricsOut where
  mx : Mx
  err : Option Stage
  executed : List Stage
deriving DecidableEq, Repr

/-- One step of the metric sequence: skipped entirely after an earlier
error (the Go function already returned) or when its guard is false; an
attempted step either folds its result into the snapshot or records the
stage as the cycle's error. -/
def tryStage {α : Type} (st : Stage) (gate : Bool) (res : Option α)
    (fold : Mx → α → Mx) (acc : MetricsOut) : MetricsOut :=
  if acc.err.isSome then acc
  else if !gate then acc
  else match res with
    | none => { acc with err := some st, executed := acc.executed ++ [st] }
    | some r => { acc with mx := fold acc.mx r, executed := acc.executed ++ [st] }

/-- Embedding of lines 57-122 of `collect`: `mx` starts empty, the core
collectors always run in their fixed order, the per-standby collectors
run only when the tracked standby set is non-empty (the lag collector
additionally only when the server version is at least 100000) and the
per-database collectors only when the tracked database set is non-empty;
the first failure aborts the rest. -/
def collectMetrics (p : PgState) (db : DbResponses) : MetricsOut :=
  let acc : MetricsOut := ⟨[], none, []⟩
  let acc := tryStage .connection true db.connection collectConnection acc
  let acc := tryStage .checkpoints true db.checkpoints collectCheckpoints acc
  let acc := tryStage .uptime true db.uptime collectUptime acc
  let acc := tryStage .txidWraparound true db.txidWraparound collectTXIDWraparound acc
  let acc := tryStage .walWrites true db.walWrites collectWALWrites acc
  let acc := tryStage .walFiles true db.walFiles collectWALFiles acc
  let acc := tryStage .walArchiveFiles true db.walArchiveFiles collectWALArchiveFiles acc
  let acc := tryStage .catalog true db.catalog collectCatalog acc
  let acc := tryStage .autovacuumWorkers true db.autovacuumWorkers collectAutovacuumWorkers acc
  let acc := tryStage .replStandbyAppDelta (!p.standbyApps.isEmpty)
    db.replStandbyAppDelta collectReplicationStandbyAppWALDelta acc
  let acc := tryStage .replStandbyAppLag
    (!p.standbyApps.isEmpty && decide (p.serverVersion ≥ 100000))
    db.replStandbyAppLag collectReplicationStandbyAppWALLag acc
  let acc := tryStage .databaseStats (!p.databases.isEmpty)
    db.databaseStats collectDatabaseStats acc
  let acc := tryStage .databaseConflicts (!p.databases.isEmpty)
    db.databaseConflicts collectDatabaseConflicts acc
  let acc := tryStage .databaseLocks (!p.databases.isEmpty)
    db.databaseLocks collectDatabaseLocks acc
  acc

/-! ## The metadata phase of `collect` (before `mx` is created) -/

/-- Outcome of one metadata step (and of the whole metadata phase): the
state after the step's mutations (mutations made before an early `return`
persist, since the receiver is a pointer), the error if the step
returned one, the chart notifications emitted, and the queries executed. -/
structure MetaOut where
  state : PgState
  err : Option Stage
  events : List AppEvent
  executed : List Stage
deriving DecidableEq, Repr

/-- Sequencing of metadata steps: once a step has returned an error the
cycle is over; otherwise the next step runs on the resulting state and
the logs concatenate. -/
def seqStep (a : MetaOut) (f : PgState → MetaOut) : MetaOut :=
  match a.err with
  | some _ => a
  | none =>
    let b := f a.state
    ⟨b.state, b.err, a.events ++ b.events, a.executed ++ b.executed⟩

/-- Embedding of lines 14-18 of `collect`: when no connection exists,
`openConnection` is attempted; on failure the cycle returns with the
manager still disconnected. -/
def stepConn (db : DbResponses) (p : PgState) : MetaOut :=
  if p.dbOpen then ⟨p, none, [], []⟩
  else if db.openConn then ⟨{ p with dbOpen := true }, none, [], []⟩
  else ⟨p, some .openConn, [], []⟩

/-- Embedding of lines 20-26 of `collect`: the server version is queried
only while the cached value is `0`; a scan or `Atoi` failure aborts the
cycle, success caches the parsed value. -/
def stepVersion (db : DbResponses) (p : PgState) : MetaOut :=
  if p.serverVersion = 0 then
    match db.serverVersion with
    | none => ⟨p, some .serverVersion, [], [.serverVersion]⟩
    | some s =>
      match goAtoi s with
      | none => ⟨p, some .serverVersion, [], [.serverVersion]⟩
      | some v => ⟨{ p with serverVersion := v }, none, [], [.serverVersion]⟩
  else ⟨p, none, [], []⟩

/-- Embedding of lines 30-37 of `collect`: when the settings window is
stale its timestamp is set to `now` first, then the fetch runs; a scan or
parse failure aborts the cycle (with the timestamp already advanced),
success stores the parsed `max_connections`. -/
def stepSettings (now : Int) (db : DbResponses) (p : PgState) : MetaOut :=
  if now - p.recheckSettingsTime > p.recheckSettingsEvery then
    let p := { p with recheckSettingsTime := now }
    match db.settingsMaxConnections with
    | none => ⟨p, some .settings, [], [.settings]⟩
    | some s =>
      match goParseInt64 s with
      | (v, none) => ⟨{ p with maxConnections := v }, none, [], [.settings]⟩
      | (_, some _) => ⟨p, some .settings, [], [.settings]⟩
  else ⟨p, none, [], []⟩

/-- Embedding of lines 39-46 of `collect`: the database-list window, with
the timestamp likewise advanced before the fetch. -/
def stepDatabaseList (now : Int) (db : DbResponses) (p : PgState) : MetaOut :=
  if now - p.relistDatabaseTime > p.relistDatabaseEvery then
    let p := { p with relistDatabaseTime := now }
    match db.databaseList with
    | none => ⟨p, some .databaseList, [], [.databaseList]⟩
    | some dbs => ⟨collectDatabaseList p dbs, none, [], [.databaseList]⟩
  else ⟨p, none, [], []⟩

/-- Embedding of lines 48-55 of `collect`: the standby-list window, with
the timestamp likewise advanced before the fetch; on success the fetched
names feed the lifecycle tracker. -/
def stepStandbyList (now : Int) (db : DbResponses) (p : PgState) : MetaOut :=
  if now - p.relistStandbyTime > p.relistStandbyEvery then
    let p := { p with relistStandbyTime := now }
    match db.standbyList with
    | none => ⟨p, some .standbyList, [], [.standbyList]⟩
    | some cells =>
      let r := collectStandbyAppList p (queryStandbyAppList cells)
      ⟨r.1, none, r.2, [.standbyList]⟩
  else ⟨p, none, [], []⟩

/-- The metadata phase of `collect` (lines 14-55): connection, cached
server version, then the three refresh windows in order. -/
def collectMeta (p : PgState) (now : Int) (db : DbResponses) : MetaOut :=
  seqStep (seqStep (seqStep (seqStep (stepConn db p)
    (stepVersion db)) (stepSettings now db)) (stepDatabaseList now db))
    (stepStandbyList now db)

/-! ## The full cycle -/

/-- Result of one cycle: the mutated orchestrator state, the returned
snapshot (`none` models Go's nil map, returned whenever the cycle fails
before `mx` is created), the error, the chart notifications, and the
queries executed. -/
structure CollectResult where
  state : PgState
  mx : Option Mx
  err : Option Stage
  events : List AppEvent
  executed : List Stage
deriving DecidableEq, Repr

/-- Embedding of `collect`: the metadata phase, then — only if it
succeeded — the metric sequence over the refreshed state.  A metadata
failure returns a nil snapshot; a metric failure returns the partial
snapshot. -/
def collect (p : PgState) (now : Int) (db : DbResponses) : CollectResult :=
  let m := collectMeta p now db
  match m.err with
  | some e => ⟨m.state, none, some e, m.events, m.executed⟩
  | none =>
    let r := collectMetrics m.state db
    ⟨m.state, some r.mx, r.err, m.events, m.executed ++ r.executed⟩

/-! ## Concrete cycle inputs used by the closed theorems -/

/-- A response set where every query succeeds. -/
def dbAllOk : DbResponses where
  openConn := true
  serverVersion := some "130005"
  settingsMaxConnections := some "100"
  databaseList := some ["db1"]
  standbyList := some [("application_name", "a")]
  connection := some [("server_connections_used", "10")]
  checkpoints := some [("checkpoints_timed", "5")]
  uptime := some "120"
  txidWraparound := some [("oldest_current_xid", "9")]
  walWrites := some 7
  walFiles := some [("wal_recycled_files", "3")]
  walArchiveFiles := some [("wal_archive_files_ready_count", "1")]
  catalog := some [("relkind", "r"), ("count", "2"), ("size", "8")]
  autovacuumWorkers := some [("autovacuum_analyze", "1")]
  replStandbyAppDelta := some [("application_name", "a"), ("write_delta", "3")]
  replStandbyAppLag := some [("application_name", "a"), ("write_lag", "2")]
  databaseStats := some [("datname", "db1"), ("xact_commit", "4")]
  databaseConflicts := some [("datname", "db1"), ("confl_lock", "0")]
  databaseLocks := some [("datname", "db1"), ("lock_mode", "1")]

/-- The same responses with the settings fetch failing. -/
def dbSettingsFail : DbResponses :=
  { dbAllOk with settingsMaxConnections := none }

/-- The same responses with the WAL-file query failing. -/
def dbWalFilesFail : DbResponses :=
  { dbAllOk with walFiles := none }

/-- The same responses with the server reporting version string `"0"`. -/
def dbVersionZero : DbResponses :=
  { dbAllOk with serverVersion := some "0" }

/-- Connected state, version cached, every refresh window fresh (interval
1000, last run at 0). -/
def pFresh : PgState where
  dbOpen := true
  serverVersion := 130005
  maxConnections := 100
  recheckSettingsTime := 0
  recheckSettingsEvery := 1000
  relistDatabaseTime := 0
  relistDatabaseEvery := 1000
  relistStandbyTime := 0
  relistStandbyEvery := 1000
  databases := []
  standbyApps := []

/-- Connected state whose settings window is stale at time 10 (interval
5, last run at 0) while the other windows stay fresh. -/
def pStaleSettings : PgState :=
  { pFresh with recheckSettingsEvery := 5 }

/-- Connected state with no cached server version and fresh windows. -/
def pVersionZero : PgState :=
  { pFresh with serverVersion := 0 }

/-- Fresh-window state tracking standby application `"a"` and database
`"db1"`. -/
def pWithApps : PgState :=
  { pFresh with standbyApps := ["a"], databases := ["db1"] }

/-- The same state on a server below the lag version threshold. -/
def pLowVersion : PgState :=
  { pWithApps with serverVersion := 90000 }

/-- State tracking standby application `"a"`, for the lifecycle-tracker
theorems. -/
def pTrackedA : PgState :=
  { pFresh with standbyApps := ["a"] }

/-! ## Snapshot-map lemmas -/

theorem mxLookup_mxSet_self (m : Mx) (k : String) (v : Int) :
    mxLookup (mxSet m k v) k = some v := by
  induction m with
  | nil => simp [mxSet, mxLookup]
  | cons hd tl ih =>
    by_cases h : hd.1 = k <;> simp [mxSet, mxLookup, h, ih]

theorem mxLookup_mxSet_ne (m : Mx) {k' k : String} (v : Int) (h : k' ≠ k) :
    mxLookup (mxSet m k' v) k = mxLookup m k := by
  induction m with
  | nil => simp [mxSet, mxLookup, h]
  | cons hd tl ih =>
    simp only [mxSet]
    by_cases h2 : hd.1 = k'
    · rw [if_pos h2]
      simp only [mxLookup]
      rw [if_neg h, if_neg (by rw [h2]; exact h)]
    · rw [if_neg h2]
      simp only [mxLookup]
      by_cases h3 : hd.1 = k <;> simp [h3, ih]

theorem isSome_mxLookup_mxSet (m : Mx) (k k' : String) (v : Int)
    (h : (mxLookup m k).isSome) : (mxLookup (mxSet m k' v) k).isSome := by
  by_cases hk : k' = k
  · subst hk; simp [mxLookup_mxSet_self]
  · rwa [mxLookup_mxSet_ne m v hk]

theorem isSome_mxLookup_foldColumnValues (cells : List Cell) (m : Mx) (k : String)
    (h : (mxLookup m k).isSome) :
    (mxLookup (foldColumnValues m cells) k).isSome := by
  induction cells generalizing m with
  | nil => simpa [foldColumnValues]
  | cons c tl ih =>
    simp only [foldColumnValues, List.foldl_cons] at *
    exact ih _ (isSome_mxLookup_mxSet _ _ _ _ h)

theorem isSome_mxLookup_foldColumnValues_mem (cells : List Cell) (m : Mx)
    {c v} (h : (c, v) ∈ cells) :
    (mxLookup (foldColumnValues m cells) c).isSome := by
  induction cells generalizing m with
  | nil => simp at h
  | cons hd tl ih =>
    simp only [List.mem_cons] at h
    rcases h with h | h
    · subst h
      simp only [foldColumnValues, List.foldl_cons]
      exact isSome_mxLookup_foldColumnValues tl _ _
        (by simp [mxLookup_mxSet_self])
    · simp only [foldColumnValues, List.foldl_cons]
      exact ih _ h

/-! ## Arithmetic lemmas -/

theorem wrap64_eq_self {x : Int} (h1 : -(2 ^ 63) ≤ x) (h2 : x < 2 ^ 63) :
    wrap64 x = x := by
  unfold wrap64
  rw [Int.emod_eq_of_lt (by omega) (by omega)]
  omega

theorem safeParseInt_range (s : String) :
    -(2 ^ 63) ≤ safeParseInt s ∧ safeParseInt s < 2 ^ 63 := by
  unfold safeParseInt goParseInt64
  rcases s.toList with _ | ⟨c, cs⟩
  · simp
  · simp only
    repeat' split
    all_goals simp_all
    all_goals omega

/-! ## Metric-sequence lemmas -/

theorem mem_tryStage_executed {α : Type} {st st' : Stage} {gate : Bool}
    {res : Option α} {fold : Mx → α → Mx} {acc : MetricsOut} :
    st' ∈ (tryStage st gate res fold acc).executed ↔
      st' ∈ acc.executed ∨ (acc.err = none ∧ gate = true ∧ st' = st) := by
  rcases hacc : acc.err with _ | e <;> rcases hg : gate <;>
    rcases res with _ | r <;> simp [tryStage, hacc, hg]

theorem tryStage_err_cases {α : Type} {st : Stage} {gate : Bool}
    {res : Option α} {fold : Mx → α → Mx} {acc : MetricsOut} {e : Stage}
    (h : (tryStage st gate res fold acc).err = some e) :
    (e = st ∧ gate = true) ∨ acc.err = some e := by
  rcases hacc : acc.err with _ | e' <;> rcases hg : gate <;>
    rcases res with _ | r <;> simp_all [tryStage]

theorem tryStage_err_of_ok {α : Type} {st : Stage} {gate : Bool}
    {res : Option α} {fold : Mx → α → Mx} {acc : MetricsOut} {r : α}
    (h : res = some r) : (tryStage st gate res fold acc).err = acc.err := by
  rcases hacc : acc.err with _ | e <;> rcases hg : gate <;> simp [tryStage, hacc, hg, h]

theorem mem_collectMetrics_executed {p : PgState} {db : DbResponses} {st : Stage}
    (h : st ∈ (collectMetrics p db).executed) :
    st = .connection ∨ st = .checkpoints ∨ st = .uptime ∨ st = .txidWraparound ∨
    st = .walWrites ∨ st = .walFiles ∨ st = .walArchiveFiles ∨ st = .catalog ∨
    st = .autovacuumWorkers ∨ st = .replStandbyAppDelta ∨ st = .replStandbyAppLag ∨
    st = .databaseStats ∨ st = .databaseConflicts ∨ st = .databaseLocks := by
  simp only [collectMetrics, mem_tryStage_executed] at h
  simp only [List.not_mem_nil] at h
  tauto

/-! ## Metadata-sequence lemmas -/

theorem seqStep_of_err {a : MetaOut} {f : PgState → MetaOut} {e : Stage}
    (h : a.err = some e) : seqStep a f = a := by
  unfold seqStep
  rw [h]

theorem seqStep_of_ok {a : MetaOut} {f : PgState → MetaOut}
    (h : a.err = none) :
    seqStep a f = ⟨(f a.state).state, (f a.state).err,
      a.events ++ (f a.state).events, a.executed ++ (f a.state).executed⟩ := by
  unfold seqStep
  rw [h]

/-- Propagating "the stage has not fired and the tracked field is still
the original one" through a step that never fires the stage and never
writes the field. -/
theorem seqStep_clean {st : Stage} {F : PgState → Int} {x : Int}
    {a : MetaOut} {f : PgState → MetaOut}
    (ha : st ∉ a.executed ∧ F a.state = x)
    (hf : ∀ q, st ∉ (f q).executed ∧ F (f q).state = F q) :
    st ∉ (seqStep a f).executed ∧ F (seqStep a f).state = x := by
  rcases he : a.err with _ | e
  · rw [seqStep_of_ok he]
    have h1 := hf a.state
    simp only [List.mem_append]
    constructor
    · intro hmem
      rcases hmem with hmem | hmem
      · exact ha.1 hmem
      · exact h1.1 hmem
    · rw [h1.2, ha.2]
  · rw [seqStep_of_err he]
    exact ha

/-- Through the step that owns the window: afterwards the field equals
`now` exactly when the stage fired, and is untouched otherwise. -/
theorem seqStep_window {st : Stage} {F : PgState → Int} {x now : Int}
    {a : MetaOut} {f : PgState → MetaOut}
    (ha : st ∉ a.executed ∧ F a.state = x)
    (hf : ∀ q, (st ∈ (f q).executed → F (f q).state = now) ∧
      (st ∉ (f q).executed → F (f q).state = F q)) :
    (st ∈ (seqStep a f).executed → F (seqStep a f).state = now) ∧
      (st ∉ (seqStep a f).executed → F (seqStep a f).state = x) := by
  rcases he : a.err with _ | e
  · rw [seqStep_of_ok he]
    have h1 := hf a.state
    simp only [List.mem_append]
    constructor
    · intro hmem
      rcases hmem with hmem | hmem
      · exact absurd hmem ha.1
      · exact h1.1 hmem
    · intro hmem
      push_neg at hmem
      rw [h1.2 hmem.2, ha.2]
  · rw [seqStep_of_err he]
    constructor
    · intro hmem
      exact absurd hmem ha.1
    · intro _
      exact ha.2
/-- After the window's own step, later neutral steps preserve the
window property. -/
theorem seqStep_neutral {st : Stage} {F : PgState → Int} {x now : Int}
    {a : MetaOut} {f : PgState → MetaOut}
    (ha : (st ∈ a.executed → F a.state = now) ∧ (st ∉ a.executed → F a.state = x))
    (hf : ∀ q, st ∉ (f q).executed ∧ F (f q).state = F q) :
    (st ∈ (seqStep a f).executed → F (seqStep a f).state = now) ∧
      (st ∉ (seqStep a f).executed → F (seqStep a f).state = x) := by
  rcases he : a.err with _ | e
  · rw [seqStep_of_ok he]
    have h1 := hf a.state
    simp only [List.mem_append]
    constructor
    · intro hmem
      rcases hmem with hmem | hmem
      · rw [h1.2]; exact ha.1 hmem
      · exact absurd hmem h1.1
    · intro hmem
      push_neg at hmem
      rw [h1.2]; exact ha.2 hmem.1
  · rw [seqStep_of_err he]
    exact ha

theorem seqStep_clean_at {st : Stage} {F : PgState → Int} {x : Int}
    {a : MetaOut} {f : PgState → MetaOut}
    (ha : st ∉ a.executed ∧ F a.state = x)
    (hf : a.err = none → st ∉ (f a.state).executed ∧ F (f a.state).state = F a.state) :
    st ∉ (seqStep a f).executed ∧ F (seqStep a f).state = x := by
  rcases he : a.err with _ | e
  · rw [seqStep_of_ok he]
    have h1 := hf he
    simp only [List.mem_append]
    constructor
    · intro hmem
      rcases hmem with hmem | hmem
      · exact ha.1 hmem
      · exact h1.1 hmem
    · rw [h1.2, ha.2]
  · rw [seqStep_of_err he]
    exact ha

theorem seqStep_preserve {F : PgState → Int} {x : Int}
    {a : MetaOut} {f : PgState → MetaOut}
    (ha : F a.state = x) (hf : ∀ q, F (f q).state = F q) :
    F (seqStep a f).state = x := by
  rcases he : a.err with _ | e
  · rw [seqStep_of_ok he]
    rw [hf a.state, ha]
  · rw [seqStep_of_err he]
    exact ha

theorem seqStep_executed_sub {st : Stage} {a : MetaOut} {f : PgState → MetaOut}
    (h : st ∈ (seqStep a f).executed) :
    st ∈ a.executed ∨ st ∈ (f a.state).executed := by
  rcases he : a.err with _ | e
  · rw [seqStep_of_ok he] at h
    simpa using h
  · rw [seqStep_of_err he] at h
    exact Or.inl h

theorem seqStep_err_sub {a : MetaOut} {f : PgState → MetaOut} {e : Stage}
    (h : (seqStep a f).err = some e) :
    a.err = some e ∨ (f a.state).err = some e := by
  rcases he : a.err with _ | e'
  · rw [seqStep_of_ok he] at h
    exact Or.inr h
  · rw [seqStep_of_err he] at h
    rw [he] at h
    exact Or.inl h

/-! ## Facts about the individual metadata steps -/

theorem stepConn_executed (db : DbResponses) (p : PgState) :
    (stepConn db p).executed = [] := by
  unfold stepConn
  repeat' split
  all_goals rfl

theorem stepConn_err_cases (db : DbResponses) (p : PgState) :
    (stepConn db p).err = none ∨ (stepConn db p).err = some .openConn := by
  unfold stepConn
  repeat' split
  all_goals simp

theorem stepConn_ok (db : DbResponses) (p : PgState)
    (h : p.dbOpen = true ∨ db.openConn = true) : (stepConn db p).err = none := by
  unfold stepConn
  rcases h with h | h
  · simp [h]
  · split
    · rfl
    · simp [h]

theorem stepConn_preserves (db : DbResponses) (p : PgState) :
    (stepConn db p).state.serverVersion = p.serverVersion ∧
    (stepConn db p).state.recheckSettingsTime = p.recheckSettingsTime ∧
    (stepConn db p).state.relistDatabaseTime = p.relistDatabaseTime ∧
    (stepConn db p).state.relistStandbyTime = p.relistStandbyTime ∧
    (stepConn db p).state.standbyApps = p.standbyApps ∧
    (stepConn db p).state.databases = p.databases := by
  unfold stepConn
  repeat' split
  all_goals simp

theorem stepVersion_executed_sub (db : DbResponses) (p : PgState) :
    (stepVersion db p).executed ⊆ [Stage.serverVersion] := by
  unfold stepVersion
  repeat' split
  all_goals simp

theorem stepVersion_err_cases (db : DbResponses) (p : PgState) :
    (stepVersion db p).err = none ∨ (stepVersion db p).err = some .serverVersion := by
  unfold stepVersion
  repeat' split
  all_goals simp

theorem stepVersion_skip (db : DbResponses) (p : PgState)
    (h : p.serverVersion ≠ 0) : stepVersion db p = ⟨p, none, [], []⟩ := by
  unfold stepVersion
  rw [if_neg h]

theorem stepVersion_fire (db : DbResponses) (p : PgState) {s : String} {v : Int}
    (h0 : p.serverVersion = 0) (hs : db.serverVersion = some s)
    (hv : goAtoi s = some v) :
    stepVersion db p = ⟨{ p with serverVersion := v }, none, [], [.serverVersion]⟩ := by
  unfold stepVersion
  rw [if_pos h0, hs]
  simp only [hv]

theorem stepVersion_preserves (db : DbResponses) (p : PgState) :
    (stepVersion db p).state.recheckSettingsTime = p.recheckSettingsTime ∧
    (stepVersion db p).state.relistDatabaseTime = p.relistDatabaseTime ∧
    (stepVersion db p).state.relistStandbyTime = p.relistStandbyTime ∧
    (stepVersion db p).state.standbyApps = p.standbyApps ∧
    (stepVersion db p).state.databases = p.databases := by
  unfold stepVersion
  repeat' split
  all_goals simp

theorem stepSettings_executed_sub (now : Int) (db : DbResponses) (p : PgState) :
    (stepSettings now db p).executed ⊆ [Stage.settings] := by
  unfold stepSettings
  repeat' split
  all_goals simp

theorem stepSettings_err_cases (now : Int) (db : DbResponses) (p : PgState) :
    (stepSettings now db p).err = none ∨ (stepSettings now db p).err = some .settings := by
  unfold stepSettings
  repeat' split
  all_goals simp

theorem stepSettings_time (now : Int) (db : DbResponses) (p : PgState) :
    (Stage.settings ∈ (stepSettings now db p).executed →
      (stepSettings now db p).state.recheckSettingsTime = now) ∧
    (Stage.settings ∉ (stepSettings now db p).executed →
      (stepSettings now db p).state.recheckSettingsTime = p.recheckSettingsTime) := by
  unfold stepSettings
  repeat' split
  all_goals simp

theorem stepSettings_preserves (now : Int) (db : DbResponses) (p : PgState) :
    (stepSettings now db p).state.serverVersion = p.serverVersion ∧
    (stepSettings now db p).state.relistDatabaseTime = p.relistDatabaseTime ∧
    (stepSettings now db p).state.relistStandbyTime = p.relistStandbyTime ∧
    (stepSettings now db p).state.standbyApps = p.standbyApps ∧
    (stepSettings now db p).state.databases = p.databases := by
  unfold stepSettings
  repeat' split
  all_goals simp

theorem stepDatabaseList_executed_sub (now : Int) (db : DbResponses) (p : PgState) :
    (stepDatabaseList now db p).executed ⊆ [Stage.databaseList] := by
  unfold stepDatabaseList
  repeat' split
  all_goals simp

theorem stepDatabaseList_err_cases (now : Int) (db : DbResponses) (p : PgState) :
    (stepDatabaseList now db p).err = none ∨
      (stepDatabaseList now db p).err = some .databaseList := by
  unfold stepDatabaseList
  repeat' split
  all_goals simp

theorem stepDatabaseList_time (now : Int) (db : DbResponses) (p : PgState) :
    (Stage.databaseList ∈ (stepDatabaseList now db p).executed →
      (stepDatabaseList now db p).state.relistDatabaseTime = now) ∧
    (Stage.databaseList ∉ (stepDatabaseList now db p).executed →
      (stepDatabaseList now db p).state.relistDatabaseTime = p.relistDatabaseTime) := by
  unfold stepDatabaseList collectDatabaseList
  repeat' split
  all_goals simp

theorem stepDatabaseList_preserves (now : Int) (db : DbResponses) (p : PgState) :
    (stepDatabaseList now db p).state.serverVersion = p.serverVersion ∧
    (stepDatabaseList now db p).state.recheckSettingsTime = p.recheckSettingsTime ∧
    (stepDatabaseList now db p).state.relistStandbyTime = p.relistStandbyTime ∧
    (stepDatabaseList now db p).state.standbyApps = p.standbyApps := by
  unfold stepDatabaseList collectDatabaseList
  repeat' split
  all_goals simp

theorem collectStandbyAppList_preserves (p : PgState) (apps : List String) :
    (collectStandbyAppList p apps).1.serverVersion = p.serverVersion ∧
    (collectStandbyAppList p apps).1.recheckSettingsTime = p.recheckSettingsTime ∧
    (collectStandbyAppList p apps).1.relistDatabaseTime = p.relistDatabaseTime ∧
    (collectStandbyAppList p apps).1.relistStandbyTime = p.relistStandbyTime ∧
    (collectStandbyAppList p apps).1.databases = p.databases := by
  unfold collectStandbyAppList
  repeat' split
  all_goals simp

theorem stepStandbyList_executed_sub (now : Int) (db : DbResponses) (p : PgState) :
    (stepStandbyList now db p).executed ⊆ [Stage.standbyList] := by
  unfold stepStandbyList
  repeat' split
  all_goals simp

theorem stepStandbyList_err_cases (now : Int) (db : DbResponses) (p : PgState) :
    (stepStandbyList now db p).err = none ∨
      (stepStandbyList now db p).err = some .standbyList := by
  unfold stepStandbyList
  repeat' split
  all_goals simp

theorem stepStandbyList_time (now : Int) (db : DbResponses) (p : PgState) :
    (Stage.standbyList ∈ (stepStandbyList now db p).executed →
      (stepStandbyList now db p).state.relistStandbyTime = now) ∧
    (Stage.standbyList ∉ (stepStandbyList now db p).executed →
      (stepStandbyList now db p).state.relistStandbyTime = p.relistStandbyTime) := by
  unfold stepStandbyList
  repeat' split
  all_goals simp [(collectStandbyAppList_preserves _ _).2.2.2.1]

theorem stepStandbyList_preserves (now : Int) (db : DbResponses) (p : PgState) :
    (stepStandbyList now db p).state.serverVersion = p.serverVersion ∧
    (stepStandbyList now db p).state.recheckSettingsTime = p.recheckSettingsTime ∧
    (stepStandbyList now db p).state.relistDatabaseTime = p.relistDatabaseTime ∧
    (stepStandbyList now db p).state.databases = p.databases := by
  have h := fun apps => collectStandbyAppList_preserves
    { p with relistStandbyTime := now } apps
  unfold stepStandbyList
  repeat' split
  all_goals simp_all

/-! ## Facts about the whole metadata phase and the whole cycle -/

theorem mem_collectMeta_executed {p : PgState} {now : Int} {db : DbResponses} {st : Stage}
    (h : st ∈ (collectMeta p now db).executed) :
    st = .serverVersion ∨ st = .settings ∨ st = .databaseList ∨ st = .standbyList := by
  unfold collectMeta at h
  rcases seqStep_executed_sub h with h | h
  · rcases seqStep_executed_sub h with h | h
    · rcases seqStep_executed_sub h with h | h
      · rcases seqStep_executed_sub h with h | h
        · rw [stepConn_executed] at h
          simp at h
        · have h2 := stepVersion_executed_sub _ _ h
          simp at h2
          tauto
      · have h2 := stepSettings_executed_sub _ _ _ h
        simp at h2
        tauto
    · have h2 := stepDatabaseList_executed_sub _ _ _ h
      simp at h2
      tauto
  · have h2 := stepStandbyList_executed_sub _ _ _ h
    simp at h2
    tauto

theorem collectMeta_err_cases {p : PgState} {now : Int} {db : DbResponses} {e : Stage}
    (h : (collectMeta p now db).err = some e) :
    e = .openConn ∨ e = .serverVersion ∨ e = .settings ∨ e = .databaseList ∨
      e = .standbyList := by
  unfold collectMeta at h
  rcases seqStep_err_sub h with h | h
  · rcases seqStep_err_sub h with h | h
    · rcases seqStep_err_sub h with h | h
      · rcases seqStep_err_sub h with h | h
        · rcases stepConn_err_cases db p with hc | hc <;> rw [hc] at h <;> simp at h
          tauto
        · rcases stepVersion_err_cases db _ with hc | hc <;> rw [hc] at h <;> simp at h
          tauto
      · rcases stepSettings_err_cases now db _ with hc | hc <;> rw [hc] at h <;> simp at h
        tauto
    · rcases stepDatabaseList_err_cases now db _ with hc | hc <;> rw [hc] at h <;> simp at h
      tauto
  · rcases stepStandbyList_err_cases now db _ with hc | hc <;> rw [hc] at h <;> simp at h
    tauto

theorem collectMeta_noop (p : PgState) (now : Int) (db : DbResponses)
    (h1 : p.dbOpen = true) (h2 : p.serverVersion ≠ 0)
    (h3 : ¬now - p.recheckSettingsTime > p.recheckSettingsEvery)
    (h4 : ¬now - p.relistDatabaseTime > p.relistDatabaseEvery)
    (h5 : ¬now - p.relistStandbyTime > p.relistStandbyEvery) :
    collectMeta p now db = ⟨p, none, [], []⟩ := by
  unfold collectMeta stepConn stepVersion stepSettings stepDatabaseList stepStandbyList
  simp [h1, h2, h3, h4, h5, seqStep]

theorem collectMeta_lastRun (p : PgState) (now : Int) (db : DbResponses) (w : Window) :
    (w.stage ∈ (collectMeta p now db).executed →
      w.lastRun (collectMeta p now db).state = now) ∧
    (w.stage ∉ (collectMeta p now db).executed →
      w.lastRun (collectMeta p now db).state = w.lastRun p) := by
  cases w
  case settings =>
    simp only [Window.stage, Window.lastRun]
    unfold collectMeta
    refine seqStep_neutral (F := fun s => s.recheckSettingsTime)
      (seqStep_neutral (F := fun s => s.recheckSettingsTime)
        (seqStep_window (F := fun s => s.recheckSettingsTime)
          (seqStep_clean (F := fun s => s.recheckSettingsTime) ?_ ?_)
          (fun q => stepSettings_time now db q)) ?_) ?_
    · exact ⟨by rw [stepConn_executed]; exact List.not_mem_nil _,
        (stepConn_preserves db p).2.1⟩
    · exact fun q => ⟨fun hmem => by have h := stepVersion_executed_sub db q hmem; simp at h,
        (stepVersion_preserves db q).1⟩
    · exact fun q => ⟨fun hmem => by have h := stepDatabaseList_executed_sub now db q hmem; simp at h,
        (stepDatabaseList_preserves now db q).2.1⟩
    · exact fun q => ⟨fun hmem => by have h := stepStandbyList_executed_sub now db q hmem; simp at h,
        (stepStandbyList_preserves now db q).2.1⟩
  case databaseList =>
    simp only [Window.stage, Window.lastRun]
    unfold collectMeta
    refine seqStep_neutral (F := fun s => s.relistDatabaseTime)
      (seqStep_window (F := fun s => s.relistDatabaseTime)
        (seqStep_clean (F := fun s => s.relistDatabaseTime)
          (seqStep_clean (F := fun s => s.relistDatabaseTime) ?_ ?_) ?_)
        (fun q => stepDatabaseList_time now db q)) ?_
    · exact ⟨by rw [stepConn_executed]; exact List.not_mem_nil _,
        (stepConn_preserves db p).2.2.1⟩
    · exact fun q => ⟨fun hmem => by have h := stepVersion_executed_sub db q hmem; simp at h,
        (stepVersion_preserves db q).2.1⟩
    · exact fun q => ⟨fun hmem => by have h := stepSettings_executed_sub now db q hmem; simp at h,
        (stepSettings_preserves now db q).2.1⟩
    · exact fun q => ⟨fun hmem => by have h := stepStandbyList_executed_sub now db q hmem; simp at h,
        (stepStandbyList_preserves now db q).2.2.1⟩
  case standbyList =>
    simp only [Window.stage, Window.lastRun]
    unfold collectMeta
    refine seqStep_window (F := fun s => s.relistStandbyTime)
      (seqStep_clean (F := fun s => s.relistStandbyTime)
        (seqStep_clean (F := fun s => s.relistStandbyTime)
          (seqStep_clean (F := fun s => s.relistStandbyTime) ?_ ?_) ?_) ?_)
      (fun q => stepStandbyList_time now db q)
    · exact ⟨by rw [stepConn_executed]; exact List.not_mem_nil _,
        (stepConn_preserves db p).2.2.2.1⟩
    · exact fun q => ⟨fun hmem => by have h := stepVersion_executed_sub db q hmem; simp at h,
        (stepVersion_preserves db q).2.2.1⟩
    · exact fun q => ⟨fun hmem => by have h := stepSettings_executed_sub now db q hmem; simp at h,
        (stepSettings_preserves now db q).2.2.1⟩
    · exact fun q => ⟨fun hmem => by have h := stepDatabaseList_executed_sub now db q hmem; simp at h,
        (stepDatabaseList_preserves now db q).2.2.1⟩

theorem collectMeta_version_cached (p : PgState) (now : Int) (db : DbResponses)
    (h : p.serverVersion ≠ 0) :
    Stage.serverVersion ∉ (collectMeta p now db).executed ∧
      (collectMeta p now db).state.serverVersion = p.serverVersion := by
  unfold collectMeta
  refine seqStep_clean (F := fun s => s.serverVersion)
    (seqStep_clean (F := fun s => s.serverVersion)
      (seqStep_clean (F := fun s => s.serverVersion)
        (seqStep_clean_at (F := fun s => s.serverVersion) ?_ ?_) ?_) ?_) ?_
  · exact ⟨by rw [stepConn_executed]; exact List.not_mem_nil _,
      (stepConn_preserves db p).1⟩
  · intro _
    rw [stepVersion_skip db _ (by rw [(stepConn_preserves db p).1]; exact h)]
    exact ⟨List.not_mem_nil _, rfl⟩
  · exact fun q => ⟨fun hmem => by have h2 := stepSettings_executed_sub now db q hmem; simp at h2,
      (stepSettings_preserves now db q).1⟩
  · exact fun q => ⟨fun hmem => by have h2 := stepDatabaseList_executed_sub now db q hmem; simp at h2,
      (stepDatabaseList_preserves now db q).1⟩
  · exact fun q => ⟨fun hmem => by have h2 := stepStandbyList_executed_sub now db q hmem; simp at h2,
      (stepStandbyList_preserves now db q).1⟩

theorem collectMeta_version_set (p : PgState) (now : Int) (db : DbResponses)
    {s : String} {v : Int}
    (hconn : p.dbOpen = true ∨ db.openConn = true) (h0 : p.serverVersion = 0)
    (hs : db.serverVersion = some s) (hv : goAtoi s = some v) :
    (collectMeta p now db).state.serverVersion = v := by
  unfold collectMeta
  have h1 : (seqStep (stepConn db p) (stepVersion db)).state.serverVersion = v := by
    rw [seqStep_of_ok (stepConn_ok db p hconn)]
    rw [stepVersion_fire db _ (by rw [(stepConn_preserves db p).1]; exact h0) hs hv]
  refine seqStep_preserve (F := fun s => s.serverVersion)
    (seqStep_preserve (F := fun s => s.serverVersion)
      (seqStep_preserve (F := fun s => s.serverVersion) h1 ?_) ?_) ?_
  · exact fun q => (stepSettings_preserves now db q).1
  · exact fun q => (stepDatabaseList_preserves now db q).1
  · exact fun q => (stepStandbyList_preserves now db q).1

theorem collect_state (p : PgState) (now : Int) (db : DbResponses) :
    (collect p now db).state = (collectMeta p now db).state := by
  unfold collect
  rcases he : (collectMeta p now db).err with _ | e <;> simp [he]

theorem mem_collect_executed {p : PgState} {now : Int} {db : DbResponses} {st : Stage} :
    st ∈ (collect p now db).executed ↔
      st ∈ (collectMeta p now db).executed ∨
        ((collectMeta p now db).err = none ∧
          st ∈ (collectMetrics (collectMeta p now db).state db).executed) := by
  unfold collect
  rcases he : (collectMeta p now db).err with _ | e <;> simp [he]

theorem collect_err_of_meta {p : PgState} {now : Int} {db : DbResponses} {e : Stage}
    (h : (collectMeta p now db).err = some e) : (collect p now db).err = some e := by
  unfold collect
  simp [h]

theorem collect_err_of_meta_ok {p : PgState} {now : Int} {db : DbResponses}
    (h : (collectMeta p now db).err = none) :
    (collect p now db).err = (collectMetrics (collectMeta p now db).state db).err := by
  unfold collect
  simp [h]

theorem window_stage_notin_metrics (q : PgState) (db : DbResponses) (w : Window) :
    w.stage ∉ (collectMetrics q db).executed := by
  intro hmem
  have h := mem_collectMetrics_executed hmem
  cases w <;> simp [Window.stage] at h

theorem serverVersion_notin_metrics (q : PgState) (db : DbResponses) :
    Stage.serverVersion ∉ (collectMetrics q db).executed := by
  intro hmem
  have h := mem_collectMetrics_executed hmem
  simp at h

theorem collectMetrics_delta_gate {q : PgState} {db : DbResponses}
    (h : Stage.replStandbyAppDelta ∈ (collectMetrics q db).executed) :
    q.standbyApps ≠ [] := by
  intro hnil
  simp [collectMetrics, mem_tryStage_executed, hnil] at h

theorem collectMetrics_lag_gate {q : PgState} {db : DbResponses}
    (h : Stage.replStandbyAppLag ∈ (collectMetrics q db).executed) :
    q.standbyApps ≠ [] ∧ 100000 ≤ q.serverVersion := by
  constructor
  · intro hnil
    simp [collectMetrics, mem_tryStage_executed, hnil] at h
  · by_contra hlt
    simp [collectMetrics, mem_tryStage_executed, Bool.and_eq_true, hlt] at h

theorem collectMetrics_dbStats_gate {q : PgState} {db : DbResponses}
    (h : Stage.databaseStats ∈ (collectMetrics q db).executed) :
    q.databases ≠ [] := by
  intro hnil
  simp [collectMetrics, mem_tryStage_executed, hnil] at h

theorem collectMetrics_dbConflicts_gate {q : PgState} {db : DbResponses}
    (h : Stage.databaseConflicts ∈ (collectMetrics q db).executed) :
    q.databases ≠ [] := by
  intro hnil
  simp [collectMetrics, mem_tryStage_executed, hnil] at h

theorem collectMetrics_dbLocks_gate {q : PgState} {db : DbResponses}
    (h : Stage.databaseLocks ∈ (collectMetrics q db).executed) :
    q.databases ≠ [] := by
  intro hnil
  simp [collectMetrics, mem_tryStage_executed, hnil] at h

theorem collectMetrics_err_replLag {q : PgState} {db : DbResponses}
    (h : (collectMetrics q db).err = some .replStandbyAppLag) :
    100000 ≤ q.serverVersion := by
  simp only [collectMetrics] at h
  rcases tryStage_err_cases h with ⟨he, _⟩ | h
  · exact absurd he (by decide)
  rcases tryStage_err_cases h with ⟨he, _⟩ | h
  · exact absurd he (by decide)
  rcases tryStage_err_cases h with ⟨he, _⟩ | h
  · exact absurd he (by decide)
  rcases tryStage_err_cases h with ⟨_, hg⟩ | h
  · rw [Bool.and_eq_true] at hg
    exact of_decide_eq_true hg.2
  rcases tryStage_err_cases h with ⟨he, _⟩ | h
  · exact absurd he (by decide)
  rcases tryStage_err_cases h with ⟨he, _⟩ | h
  · exact absurd he (by decide)
  rcases tryStage_err_cases h with ⟨he, _⟩ | h
  · exact absurd he (by decide)
  rcases tryStage_err_cases h with ⟨he, _⟩ | h
  · exact absurd he (by decide)
  rcases tryStage_err_cases h with ⟨he, _⟩ | h
  · exact absurd he (by decide)
  rcases tryStage_err_cases h with ⟨he, _⟩ | h
  · exact absurd he (by decide)
  rcases tryStage_err_cases h with ⟨he, _⟩ | h
  · exact absurd he (by decide)
  rcases tryStage_err_cases h with ⟨he, _⟩ | h
  · exact absurd he (by decide)
  rcases tryStage_err_cases h with ⟨he, _⟩ | h
  · exact absurd he (by decide)
  rcases tryStage_err_cases h with ⟨he, _⟩ | h
  · exact absurd he (by decide)
  simp at h

/-! ## Lemmas on first occurrences and the standby folds -/

theorem mem_firstOccurrences (a : String) (l : List String) :
    a ∈ firstOccurrences l ↔ a ∈ l := by
  induction l using firstOccurrences.induct with
  | case1 => simp [firstOccurrences]
  | case2 x xs ih =>
    by_cases hx : a = x
    · subst hx
      simp [firstOccurrences]
    · simp only [firstOccurrences, List.mem_cons]
      rw [ih]
      simp [List.mem_filter, hx]

theorem firstOccurrences_nodup (l : List String) : (firstOccurrences l).Nodup := by
  induction l using firstOccurrences.induct with
  | case1 => simp [firstOccurrences]
  | case2 x xs ih =>
    simp only [firstOccurrences, List.nodup_cons]
    refine ⟨?_, ih⟩
    rw [mem_firstOccurrences]
    simp [List.mem_filter]

theorem foldl_standbyAssign_eq (cells : List Cell) : ∀ acc : List String,
    cells.foldl standbyAssign acc =
      acc ++ firstOccurrences
        ((appNameValues cells).filter (fun v => decide (v ∉ acc))) := by
  induction cells with
  | nil =>
    intro acc
    simp [appNameValues, firstOccurrences]
  | cons cv tl ih =>
    intro acc
    by_cases hc : cv.1 = "application_name"
    · have hnm : appNameValues (cv :: tl) = cv.2 :: appNameValues tl := by
        simp [appNameValues, hc]
      by_cases hv : cv.2 ∈ acc
      · have hstep : standbyAssign acc cv = acc := by
          simp [standbyAssign, hv]
        rw [List.foldl_cons, hstep, ih acc, hnm]
        simp [hv]
      · have hstep : standbyAssign acc cv = acc ++ [cv.2] := by
          simp [standbyAssign, hc, hv]
        rw [List.foldl_cons, hstep, ih (acc ++ [cv.2]), hnm]
        have hfil : (appNameValues tl).filter (fun v => decide (v ∉ acc ++ [cv.2])) =
            ((appNameValues tl).filter (fun v => decide (v ∉ acc))).filter
              (fun v => decide (v ≠ cv.2)) := by
          rw [List.filter_filter]
          refine List.filter_congr ?_
          intro x _
          by_cases h1 : x ∈ acc <;> by_cases h2 : x = cv.2 <;> simp [h1, h2]
        rw [hfil]
        simp only [List.filter_cons, hv, decide_not]
        simp [firstOccurrences, List.append_assoc]
    · have hnm : appNameValues (cv :: tl) = appNameValues tl := by
        simp [appNameValues, hc]
      have hstep : standbyAssign acc cv = acc := by
        simp [standbyAssign, hc]
      rw [List.foldl_cons, hstep, ih acc, hnm]

theorem foldl_standbyDiffStep_mem (apps : List String) :
    ∀ (cl ad : List String) (a : String),
      (a ∈ (apps.foldl standbyDiffStep (cl, ad)).1 ↔ (a ∈ cl ∨ a ∈ apps)) ∧
      (a ∈ (apps.foldl standbyDiffStep (cl, ad)).2 ↔
        (a ∈ ad ∨ (a ∈ apps ∧ a ∉ cl))) := by
  induction apps with
  | nil =>
    intro cl ad a
    simp
  | cons x xs ih =>
    intro cl ad a
    by_cases hx : x ∈ cl
    · have hstep : standbyDiffStep (cl, ad) x = (cl, ad) := by
        simp [standbyDiffStep, hx]
      rw [List.foldl_cons, hstep]
      rcases ih cl ad a with ⟨ih1, ih2⟩
      constructor
      · rw [ih1]
        by_cases hax : a = x <;> simp [hax, hx]
      · rw [ih2]
        by_cases hax : a = x <;> simp [hax, hx]
    · have hstep : standbyDiffStep (cl, ad) x = (cl ++ [x], ad ++ [x]) := by
        simp [standbyDiffStep, hx]
      rw [List.foldl_cons, hstep]
      rcases ih (cl ++ [x]) (ad ++ [x]) a with ⟨ih1, ih2⟩
      constructor
      · rw [ih1]
        by_cases hax : a = x <;> simp [hax, hx, List.mem_append]
      · rw [ih2]
        by_cases hax : a = x <;> simp [hax, hx, List.mem_append, not_or]

/-! ## Catalog seeding lemmas -/

theorem seedCatalog_lookup (mx : Mx) (k : String) (hk : k ∈ catalogKinds) :
    mxLookup (seedCatalog mx) ("catalog_relkind_" ++ k ++ "_count") = some 0 ∧
      mxLookup (seedCatalog mx) ("catalog_relkind_" ++ k ++ "_size") = some 0 := by
  fin_cases hk <;>
    simp [seedCatalog, catalogKinds, mxLookup_mxSet_self, mxLookup_mxSet_ne]

theorem isSome_mxLookup_catalogFold (cells : List Cell) :
    ∀ (m : Mx) (kd k : String), (mxLookup m k).isSome →
      (mxLookup ((cells.foldl catalogAssign (m, kd)).1) k).isSome := by
  induction cells with
  | nil =>
    intro m kd k h
    simpa
  | cons cv tl ih =>
    intro m kd k h
    rw [List.foldl_cons]
    unfold catalogAssign
    split
    · exact ih _ _ _ h
    · exact ih _ _ _ (isSome_mxLookup_mxSet _ _ _ _ h)

/-! ## Claim theorems -/

/-- C6: for every string value folded into the snapshot through the
keyed-expansion path, malformed numeric text (the empty string, or text
that is not an optionally signed run of decimal digits) yields the value
`0` for that key; `safeParseInt` is total, so no error can reach the
caller. -/
theorem malformed_numeric_text_yields_zero (s : String)
    (h : isValidInt64Literal s = false) :
    safeParseInt s = 0 ∧
      ∀ (mx : Mx) (c : String), mxLookup (foldColumnValues mx [(c, s)]) c = some 0 := by
  have h0 : safeParseInt s = 0 := by
    unfold isValidInt64Literal at h
    unfold safeParseInt goParseInt64
    rcases hl : s.toList with _ | ⟨c, cs⟩
    · simp only [hl]
    · simp only [hl] at h ⊢
      set ds := if c = '-' ∨ c = '+' then cs else c :: cs with hds
      by_cases hcond : (ds.isEmpty || !ds.all Char.isDigit) = true
      · rw [if_pos hcond]
      · exfalso
        simp only [Bool.or_eq_true, Bool.not_eq_true'] at hcond
        simp only [Bool.and_eq_false_iff] at h
        rcases h with h | h
        · exact hcond (Or.inl (by simpa using h))
        · exact hcond (Or.inr h)
  refine ⟨h0, fun mx c => ?_⟩
  simp [foldColumnValues, h0, mxLookup_mxSet_self]

/-- Witness for C6 at two concrete malformed strings. -/
theorem malformed_numeric_text_yields_zero_witness :
    safeParseInt "" = 0 ∧ safeParseInt "12ab" = 0 :=
  ⟨(malformed_numeric_text_yields_zero "" (by decide)).1,
    (malformed_numeric_text_yields_zero "12ab" (by decide)).1⟩

/-- C10: a scanned cell that is not a valid (non-NULL) `sql.NullString`
is converted to the empty string before reaching the fold callback, and
the empty string then parses to metric value `0`, with no error. -/
theorem null_value_degrades_to_zero (v : SqlValue)
    (h : isValidNullString v = false) :
    valueToString v = "" ∧ safeParseInt (valueToString v) = 0 := by
  have h1 : valueToString v = "" := by
    cases v with
    | nullString b s =>
      cases b with
      | false => rfl
      | true => simp [isValidNullString] at h
    | other => rfl
  refine ⟨h1, ?_⟩
  rw [h1]
  decide

/-- Witness for C10 at a NULL `sql.NullString` carrying the text "7". -/
theorem null_value_degrades_to_zero_witness :
    valueToString (SqlValue.nullString false "7") = "" ∧
      safeParseInt (valueToString (SqlValue.nullString false "7")) = 0 :=
  null_value_degrades_to_zero (SqlValue.nullString false "7") rfl

/-- C9: the name list handed to the lifecycle tracker by
`queryStandbyAppList` is exactly the stream of `application_name` values
with later duplicates dropped (each name at most once, in order of first
occurrence). -/
theorem queryStandbyAppList_first_occurrences (cells : List Cell) :
    queryStandbyAppList cells = firstOccurrences (appNameValues cells) ∧
      (queryStandbyAppList cells).Nodup := by
  have he : queryStandbyAppList cells = firstOccurrences (appNameValues cells) := by
    have hf : (appNameValues cells).filter (fun v => decide (v ∉ ([] : List String))) =
        appNameValues cells :=
      List.filter_eq_self.mpr (fun a _ => by simp)
    unfold queryStandbyAppList
    rw [foldl_standbyAssign_eq, hf, List.nil_append]
  refine ⟨he, ?_⟩
  rw [he]
  exact firstOccurrences_nodup _

/-- C5: every one of the ten known relation-kind count and size keys is
present in the snapshot after `collectCatalog` runs, whatever rows the
catalog query returned, and carries the seeded value `0` when the result
set is empty. -/
theorem catalog_preseeds_relkind_keys (mx : Mx) (cells : List Cell) (k : String)
    (hk : k ∈ catalogKinds) :
    (mxLookup (collectCatalog mx cells) ("catalog_relkind_" ++ k ++ "_count")).isSome ∧
    (mxLookup (collectCatalog mx cells) ("catalog_relkind_" ++ k ++ "_size")).isSome ∧
    mxLookup (collectCatalog mx []) ("catalog_relkind_" ++ k ++ "_count") = some 0 ∧
    mxLookup (collectCatalog mx []) ("catalog_relkind_" ++ k ++ "_size") = some 0 := by
  have hs := seedCatalog_lookup mx k hk
  refine ⟨?_, ?_, ?_, ?_⟩
  · unfold collectCatalog
    exact isSome_mxLookup_catalogFold cells (seedCatalog mx) "" _ (by rw [hs.1]; rfl)
  · unfold collectCatalog
    exact isSome_mxLookup_catalogFold cells (seedCatalog mx) "" _ (by rw [hs.2]; rfl)
  · unfold collectCatalog
    simpa using hs.1
  · unfold collectCatalog
    simpa using hs.2

/-- Witness for C5 at kind `"r"`, with a non-empty and an empty result
set. -/
theorem catalog_preseeds_relkind_keys_witness :
    (mxLookup (collectCatalog [] [("relkind", "x")])
      ("catalog_relkind_" ++ "r" ++ "_count")).isSome ∧
    mxLookup (collectCatalog [] []) ("catalog_relkind_" ++ "r" ++ "_size") = some 0 :=
  ⟨(catalog_preseeds_relkind_keys [] [("relkind", "x")] "r" (by decide)).1,
    (catalog_preseeds_relkind_keys [] [] "r" (by decide)).2.2.2⟩

/-- C4: two rows for the same standby application and value column are
summed by the replication delta and lag collectors (`+=`), while the
other keyed expansions (catalog relation kinds, per-database stats)
overwrite, keeping only the second row's value. -/
theorem replication_accumulates_others_overwrite (mx : Mx)
    (app c k d v1 v2 : String)
    (hca : c ≠ "application_name") (hcr : c ≠ "relkind") (hcd : c ≠ "datname")
    (h0 : mxLookup mx ("repl_standby_app_" ++ app ++ "_wal_" ++ c) = none)
    (hlo : -(2 ^ 63) ≤ safeParseInt v1 + safeParseInt v2)
    (hhi : safeParseInt v1 + safeParseInt v2 < 2 ^ 63) :
    mxLookup (collectReplicationStandbyAppWALDelta mx
        [("application_name", app), (c, v1), ("application_name", app), (c, v2)])
      ("repl_standby_app_" ++ app ++ "_wal_" ++ c) =
        some (safeParseInt v1 + safeParseInt v2) ∧
    mxLookup (collectReplicationStandbyAppWALLag mx
        [("application_name", app), (c, v1), ("application_name", app), (c, v2)])
      ("repl_standby_app_" ++ app ++ "_wal_" ++ c) =
        some (safeParseInt v1 + safeParseInt v2) ∧
    mxLookup (collectCatalog mx [("relkind", k), (c, v1), ("relkind", k), (c, v2)])
      ("catalog_relkind_" ++ k ++ "_" ++ c) = some (safeParseInt v2) ∧
    mxLookup (collectDatabaseStats mx [("datname", d), (c, v1), ("datname", d), (c, v2)])
      ("db_" ++ d ++ "_" ++ c) = some (safeParseInt v2) := by
  have hkey : mxGet mx ("repl_standby_app_" ++ app ++ "_wal_" ++ c) = 0 := by
    unfold mxGet
    rw [h0]
    rfl
  have hacc : mxLookup (mxAdd (mxAdd mx ("repl_standby_app_" ++ app ++ "_wal_" ++ c)
      (safeParseInt v1)) ("repl_standby_app_" ++ app ++ "_wal_" ++ c) (safeParseInt v2))
      ("repl_standby_app_" ++ app ++ "_wal_" ++ c) =
      some (safeParseInt v1 + safeParseInt v2) := by
    have e1 : mxAdd mx ("repl_standby_app_" ++ app ++ "_wal_" ++ c) (safeParseInt v1) =
        mxSet mx ("repl_standby_app_" ++ app ++ "_wal_" ++ c) (safeParseInt v1) := by
      unfold mxAdd
      rw [hkey, zero_add,
        wrap64_eq_self (safeParseInt_range v1).1 (safeParseInt_range v1).2]
    rw [e1]
    have e2 : mxGet (mxSet mx ("repl_standby_app_" ++ app ++ "_wal_" ++ c)
        (safeParseInt v1)) ("repl_standby_app_" ++ app ++ "_wal_" ++ c) =
        safeParseInt v1 := by
      unfold mxGet
      rw [mxLookup_mxSet_self]
      rfl
    unfold mxAdd
    rw [e2, wrap64_eq_self hlo hhi, mxLookup_mxSet_self]
  have hdel : (List.foldl replAssign (mx, "")
      [("application_name", app), (c, v1), ("application_name", app), (c, v2)]).1 =
      mxAdd (mxAdd mx ("repl_standby_app_" ++ app ++ "_wal_" ++ c) (safeParseInt v1))
        ("repl_standby_app_" ++ app ++ "_wal_" ++ c) (safeParseInt v2) := by
    simp [replAssign, hca]
  refine ⟨?_, ?_, ?_, ?_⟩
  · unfold collectReplicationStandbyAppWALDelta
    rw [hdel]
    exact hacc
  · unfold collectReplicationStandbyAppWALLag
    rw [hdel]
    exact hacc
  · have hcat : collectCatalog mx [("relkind", k), (c, v1), ("relkind", k), (c, v2)] =
        mxSet (mxSet (seedCatalog mx) ("catalog_relkind_" ++ k ++ "_" ++ c)
          (safeParseInt v1)) ("catalog_relkind_" ++ k ++ "_" ++ c) (safeParseInt v2) := by
      simp [collectCatalog, catalogAssign, hcr]
    rw [hcat, mxLookup_mxSet_self]
  · have hdb : collectDatabaseStats mx [("datname", d), (c, v1), ("datname", d), (c, v2)] =
        mxSet (mxSet mx ("db_" ++ d ++ "_" ++ c) (safeParseInt v1))
          ("db_" ++ d ++ "_" ++ c) (safeParseInt v2) := by
      simp [collectDatabaseStats, dbStatsAssign, hcd]
    rw [hdb, mxLookup_mxSet_self]

/-- Witness for C4: standby application "replica1", value column
"write_delta", relation kind "r", database "db1", values 1 and 2. -/
theorem replication_accumulates_others_overwrite_witness :
    mxLookup (collectReplicationStandbyAppWALDelta []
        [("application_name", "replica1"), ("write_delta", "1"),
          ("application_name", "replica1"), ("write_delta", "2")])
      ("repl_standby_app_" ++ "replica1" ++ "_wal_" ++ "write_delta") =
        some (safeParseInt "1" + safeParseInt "2") ∧
    mxLookup (collectReplicationStandbyAppWALLag []
        [("application_name", "replica1"), ("write_delta", "1"),
          ("application_name", "replica1"), ("write_delta", "2")])
      ("repl_standby_app_" ++ "replica1" ++ "_wal_" ++ "write_delta") =
        some (safeParseInt "1" + safeParseInt "2") ∧
    mxLookup (collectCatalog []
        [("relkind", "r"), ("write_delta", "1"), ("relkind", "r"), ("write_delta", "2")])
      ("catalog_relkind_" ++ "r" ++ "_" ++ "write_delta") = some (safeParseInt "2") ∧
    mxLookup (collectDatabaseStats []
        [("datname", "db1"), ("write_delta", "1"), ("datname", "db1"), ("write_delta", "2")])
      ("db_" ++ "db1" ++ "_" ++ "write_delta") = some (safeParseInt "2") :=
  replication_accumulates_others_overwrite [] "replica1" "write_delta" "r" "db1" "1" "2"
    (by decide) (by decide) (by decide) rfl (by decide) (by decide)

/-- C2 counterexample: with standby application "a" tracked, a fetched
empty list emits no notification at all and leaves the tracked set
unchanged, contradicting the claimed removal notifications and
replacement by the empty set. -/
theorem standby_empty_list_no_removals_cex :
    (collectStandbyAppList pTrackedA []).2 = [] ∧
      (collectStandbyAppList pTrackedA []).1.standbyApps = ["a"] :=
  ⟨rfl, rfl⟩

/-- C2 amended: for every NON-EMPTY fetched name list, the tracker
replaces the tracked set with the new list, emits an addition exactly for
the new names, and emits a removal exactly for the previously tracked
names absent from the new list; a fetched empty list returns without
notifications or replacement. -/
theorem collectStandbyAppList_nonempty_diff (p : PgState) (apps : List String)
    (h : apps ≠ []) :
    (collectStandbyAppList p apps).1.standbyApps = apps ∧
    (∀ a, AppEvent.added a ∈ (collectStandbyAppList p apps).2 ↔
      (a ∈ apps ∧ a ∉ p.standbyApps)) ∧
    (∀ a, AppEvent.removed a ∈ (collectStandbyAppList p apps).2 ↔
      (a ∈ p.standbyApps ∧ a ∉ apps)) := by
  have hres : collectStandbyAppList p apps =
      ({ p with standbyApps := apps },
        ((apps.foldl standbyDiffStep (firstOccurrences p.standbyApps, [])).2).map
          AppEvent.added ++
        (((apps.foldl standbyDiffStep (firstOccurrences p.standbyApps, [])).1).filter
          (fun a => a ∉ apps)).map AppEvent.removed) := by
    unfold collectStandbyAppList
    rw [if_neg h]
  have hm1 : ∀ b, b ∈ (apps.foldl standbyDiffStep (firstOccurrences p.standbyApps, [])).1 ↔
      (b ∈ p.standbyApps ∨ b ∈ apps) := fun b => by
    have h2 := (foldl_standbyDiffStep_mem apps (firstOccurrences p.standbyApps) [] b).1
    simpa [mem_firstOccurrences] using h2
  have hm2 : ∀ b, b ∈ (apps.foldl standbyDiffStep (firstOccurrences p.standbyApps, [])).2 ↔
      (b ∈ apps ∧ b ∉ p.standbyApps) := fun b => by
    have h2 := (foldl_standbyDiffStep_mem apps (firstOccurrences p.standbyApps) [] b).2
    simpa [mem_firstOccurrences] using h2
  rw [hres]
  refine ⟨rfl, ?_, ?_⟩
  · intro a
    simp only [List.mem_append, List.mem_map, List.mem_filter, hm2]
    constructor
    · rintro (⟨b, hb, hba⟩ | ⟨b, hb, hba⟩)
      · obtain rfl : b = a := by injection hba
        exact hb
      · exact absurd hba (by simp)
    · intro ha
      exact Or.inl ⟨a, ha, rfl⟩
  · intro a
    simp only [List.mem_append, List.mem_map, List.mem_filter, hm1]
    constructor
    · rintro (⟨b, hb, hba⟩ | ⟨b, hb, hba⟩)
      · exact absurd hba (by simp)
      · have hba2 : b = a := by injection hba
        obtain ⟨hb1, hb2⟩ := hb
        rw [hba2] at hb1 hb2
        have hb3 : a ∉ apps := by simpa using hb2
        rcases hb1 with h1 | h1
        · exact ⟨h1, hb3⟩
        · exact absurd h1 hb3
    · rintro ⟨ha1, ha2⟩
      exact Or.inr ⟨a, ⟨Or.inl ha1, by simpa⟩, rfl⟩

/-- Witness for C2 amended: tracked set {"a"}, fetched list ["b", "c"]:
the set is replaced and a removal for "a" is emitted. -/
theorem collectStandbyAppList_nonempty_diff_witness :
    (collectStandbyAppList pTrackedA ["b", "c"]).1.standbyApps = ["b", "c"] ∧
      AppEvent.removed "a" ∈ (collectStandbyAppList pTrackedA ["b", "c"]).2 :=
  ⟨(collectStandbyAppList_nonempty_diff pTrackedA ["b", "c"] (by decide)).1,
    ((collectStandbyAppList_nonempty_diff pTrackedA ["b", "c"] (by decide)).2.2 "a").mpr
      (by decide)⟩

/-- C1 counterexample: with the settings window stale and the settings
fetch failing, the cycle returns the settings error, yet the window's
lastRun timestamp has already been advanced to `now` (10) instead of
staying at its previous value (0) — so the failed refresh is NOT retried
on the next cycle. -/
theorem settings_failed_fetch_advances_lastRun_cex :
    (collect pStaleSettings 10 dbSettingsFail).err = some Stage.settings ∧
    (collect pStaleSettings 10 dbSettingsFail).state.recheckSettingsTime = 10 ∧
    pStaleSettings.recheckSettingsTime = 0 := by
  refine ⟨?_, ?_, rfl⟩ <;> decide

/-- C1 amended: for every metadata refresh window, lastRun is set to
`now` whenever the window's fetch is attempted — before the fetch, hence
also when the fetch fails — and is left unchanged exactly when the window
does not fire this cycle.  A failed refresh therefore waits a full
interval rather than being retried on the next cycle. -/
theorem window_lastRun_set_iff_fetch_attempted (p : PgState) (now : Int)
    (db : DbResponses) (w : Window) :
    (w.stage ∈ (collect p now db).executed →
      w.lastRun (collect p now db).state = now) ∧
    (w.stage ∉ (collect p now db).executed →
      w.lastRun (collect p now db).state = w.lastRun p) := by
  have hm := collectMeta_lastRun p now db w
  rw [collect_state]
  constructor
  · intro hmem
    rcases mem_collect_executed.1 hmem with h2 | h2
    · exact hm.1 h2
    · exact absurd h2.2 (window_stage_notin_metrics _ _ _)
  · intro hmem
    exact hm.2 (fun hx => hmem (mem_collect_executed.2 (Or.inl hx)))

/-- Witness for C1 amended: the fired settings window's lastRun equals
`now` even though its fetch failed, and the idle database-list window's
lastRun is untouched. -/
theorem window_lastRun_set_iff_fetch_attempted_witness :
    Window.settings.lastRun (collect pStaleSettings 10 dbSettingsFail).state = 10 ∧
    Window.databaseList.lastRun (collect pStaleSettings 10 dbSettingsFail).state =
      Window.databaseList.lastRun pStaleSettings :=
  ⟨(window_lastRun_set_iff_fetch_attempted pStaleSettings 10 dbSettingsFail
      Window.settings).1 (by decide),
    (window_lastRun_set_iff_fetch_attempted pStaleSettings 10 dbSettingsFail
      Window.databaseList).2 (by decide)⟩

/-- C7 counterexample: when the version query succeeds with the string
"0", the cycle succeeds but leaves the cache at 0, and the next cycle
queries the server version again — a successful query does not guarantee
a non-zero cache. -/
theorem server_version_zero_requeried_cex :
    goAtoi "0" = some 0 ∧
    (collect pVersionZero 1 dbVersionZero).err = none ∧
    (collect pVersionZero 1 dbVersionZero).state.serverVersion = 0 ∧
    Stage.serverVersion ∈
      (collect (collect pVersionZero 1 dbVersionZero).state 2 dbVersionZero).executed := by
  refine ⟨by decide, by decide, by decide, by decide⟩

/-- C7 amended: once the cached server version is non-zero, no cycle
queries or changes it; while it is zero, a successful version query
stores the value the server reported (so the cache is non-zero
afterwards exactly when the reported version is non-zero). -/
theorem server_version_cached_once_nonzero (p : PgState) (now : Int)
    (db : DbResponses) :
    (p.serverVersion ≠ 0 →
      Stage.serverVersion ∉ (collect p now db).executed ∧
      (collect p now db).state.serverVersion = p.serverVersion) ∧
    (∀ s v, p.serverVersion = 0 → p.dbOpen = true ∨ db.openConn = true →
      db.serverVersion = some s → goAtoi s = some v →
      (collect p now db).state.serverVersion = v) := by
  constructor
  · intro h
    have hc := collectMeta_version_cached p now db h
    rw [collect_state]
    refine ⟨fun hmem => ?_, hc.2⟩
    rcases mem_collect_executed.1 hmem with h2 | h2
    · exact hc.1 h2
    · exact serverVersion_notin_metrics _ _ h2.2
  · intro s v h0 hconn hs hv
    rw [collect_state]
    exact collectMeta_version_set p now db hconn h0 hs hv

/-- Witness for C7 amended: a cached non-zero version is not re-queried
and survives the cycle; an uncached version is filled from the query. -/
theorem server_version_cached_once_nonzero_witness :
    (Stage.serverVersion ∉ (collect pFresh 5 dbAllOk).executed ∧
      (collect pFresh 5 dbAllOk).state.serverVersion = pFresh.serverVersion) ∧
    (collect pVersionZero 1 dbAllOk).state.serverVersion = 130005 :=
  ⟨(server_version_cached_once_nonzero pFresh 5 dbAllOk).1 (by decide),
    (server_version_cached_once_nonzero pVersionZero 1 dbAllOk).2 "130005" 130005
      rfl (Or.inl rfl) rfl (by decide)⟩

/-- C8: the per-standby collectors run only when the tracked standby set
(after this cycle's refresh) is non-empty, the lag collector additionally
only when the cached server version is at least 100000, and the
per-database collectors only when the tracked database set is non-empty;
an insufficient version skips the lag collector without contributing an
error. -/
theorem entity_gates_and_version_gate (p : PgState) (now : Int) (db : DbResponses) :
    (Stage.replStandbyAppDelta ∈ (collect p now db).executed →
      (collectMeta p now db).state.standbyApps ≠ []) ∧
    (Stage.replStandbyAppLag ∈ (collect p now db).executed →
      (collectMeta p now db).state.standbyApps ≠ [] ∧
        100000 ≤ (collectMeta p now db).state.serverVersion) ∧
    (Stage.databaseStats ∈ (collect p now db).executed →
      (collectMeta p now db).state.databases ≠ []) ∧
    (Stage.databaseConflicts ∈ (collect p now db).executed →
      (collectMeta p now db).state.databases ≠ []) ∧
    (Stage.databaseLocks ∈ (collect p now db).executed →
      (collectMeta p now db).state.databases ≠ []) ∧
    ((collectMeta p now db).state.serverVersion < 100000 →
      Stage.replStandbyAppLag ∉ (collect p now db).executed ∧
      (collect p now db).err ≠ some Stage.replStandbyAppLag) := by
  refine ⟨?_, ?_, ?_, ?_, ?_, ?_⟩
  · intro hmem
    rcases mem_collect_executed.1 hmem with h2 | h2
    · rcases mem_collectMeta_executed h2 with h | h | h | h <;> exact absurd h (by decide)
    · exact collectMetrics_delta_gate h2.2
  · intro hmem
    rcases mem_collect_executed.1 hmem with h2 | h2
    · rcases mem_collectMeta_executed h2 with h | h | h | h <;> exact absurd h (by decide)
    · exact collectMetrics_lag_gate h2.2
  · intro hmem
    rcases mem_collect_executed.1 hmem with h2 | h2
    · rcases mem_collectMeta_executed h2 with h | h | h | h <;> exact absurd h (by decide)
    · exact collectMetrics_dbStats_gate h2.2
  · intro hmem
    rcases mem_collect_executed.1 hmem with h2 | h2
    · rcases mem_collectMeta_executed h2 with h | h | h | h <;> exact absurd h (by decide)
    · exact collectMetrics_dbConflicts_gate h2.2
  · intro hmem
    rcases mem_collect_executed.1 hmem with h2 | h2
    · rcases mem_collectMeta_executed h2 with h | h | h | h <;> exact absurd h (by decide)
    · exact collectMetrics_dbLocks_gate h2.2
  · intro hv
    constructor
    · intro hmem
      rcases mem_collect_executed.1 hmem with h2 | h2
      · rcases mem_collectMeta_executed h2 with h | h | h | h <;> exact absurd h (by decide)
      · exact absurd (collectMetrics_lag_gate h2.2).2 (by omega)
    · intro herr
      rcases he : (collectMeta p now db).err with _ | e
      · rw [collect_err_of_meta_ok he] at herr
        exact absurd (collectMetrics_err_replLag herr) (by omega)
      · have h3 := (collect_err_of_meta he).symm.trans herr
        rw [Option.some.injEq] at h3
        subst h3
        rcases collectMeta_err_cases he with h | h | h | h | h <;>
          exact absurd h (by decide)

/-- Witness for C8: with standby "a" tracked the delta collector fires
(so the tracked set is provably non-empty), and on a version-90000 server
the lag collector is skipped. -/
theorem entity_gates_and_version_gate_witness :
    (collectMeta pWithApps 1 dbAllOk).state.standbyApps ≠ [] ∧
    Stage.replStandbyAppLag ∉ (collect pLowVersion 1 dbAllOk).executed :=
  ⟨(entity_gates_and_version_gate pWithApps 1 dbAllOk).1 (by decide),
    ((entity_gates_and_version_gate pLowVersion 1 dbAllOk).2.2.2.2.2 (by decide)).1⟩

/-- C3: when the WAL-file query fails after the connections, checkpoints
and uptime queries succeeded, the cycle stops (the later stages are not
attempted) and returns the stage-tagged WAL-file error together with the
non-nil partial snapshot, which still contains every key populated by the
earlier collectors. -/
theorem metric_failure_returns_partial_snapshot (p : PgState) (now : Int)
    (db : DbResponses) (cc kc tc : List Cell) (us : String) (wv : Int)
    (h1 : p.dbOpen = true) (h2 : p.serverVersion ≠ 0)
    (h3 : ¬now - p.recheckSettingsTime > p.recheckSettingsEvery)
    (h4 : ¬now - p.relistDatabaseTime > p.relistDatabaseEvery)
    (h5 : ¬now - p.relistStandbyTime > p.relistStandbyEvery)
    (hconn : db.connection = some cc) (hckpt : db.checkpoints = some kc)
    (hup : db.uptime = some us) (htx : db.txidWraparound = some tc)
    (hww : db.walWrites = some wv) (hwf : db.walFiles = none) :
    (collect p now db).err = some Stage.walFiles ∧
    Stage.walArchiveFiles ∉ (collect p now db).executed ∧
    Stage.catalog ∉ (collect p now db).executed ∧
    ∃ m, (collect p now db).mx = some m ∧
      (∀ c v, (c, v) ∈ cc → (mxLookup m c).isSome) ∧
      (∀ c v, (c, v) ∈ kc → (mxLookup m c).isSome) ∧
      (mxLookup m "server_uptime").isSome ∧
      (mxLookup m "wal_writes").isSome := by
  have hmeta := collectMeta_noop p now db h1 h2 h3 h4 h5
  have hred : collect p now db =
      ⟨p, some (collectMetrics p db).mx, (collectMetrics p db).err, [],
        [] ++ (collectMetrics p db).executed⟩ := by
    unfold collect
    rw [hmeta]
  have hmx : collectMetrics p db =
      ⟨collectWALWrites (collectTXIDWraparound (collectUptime
          (collectCheckpoints (collectConnection [] cc) kc) us) tc) wv,
        some Stage.walFiles,
        [Stage.connection, Stage.checkpoints, Stage.uptime, Stage.txidWraparound,
          Stage.walWrites, Stage.walFiles]⟩ := by
    unfold collectMetrics
    rw [hconn, hckpt, hup, htx, hww, hwf]
    simp [tryStage]
  rw [hred, hmx]
  dsimp only
  refine ⟨rfl, by simp, by simp,
    collectWALWrites (collectTXIDWraparound (collectUptime
      (collectCheckpoints (collectConnection [] cc) kc) us) tc) wv,
    rfl, ?_, ?_, ?_, ?_⟩
  · intro c v hcv
    unfold collectWALWrites
    apply isSome_mxLookup_mxSet
    unfold collectTXIDWraparound
    apply isSome_mxLookup_foldColumnValues
    unfold collectUptime
    apply isSome_mxLookup_mxSet
    unfold collectCheckpoints
    apply isSome_mxLookup_foldColumnValues
    unfold collectConnection
    exact isSome_mxLookup_foldColumnValues_mem cc [] hcv
  · intro c v hcv
    unfold collectWALWrites
    apply isSome_mxLookup_mxSet
    unfold collectTXIDWraparound
    apply isSome_mxLookup_foldColumnValues
    unfold collectUptime
    apply isSome_mxLookup_mxSet
    unfold collectCheckpoints
    exact isSome_mxLookup_foldColumnValues_mem kc _ hcv
  · unfold collectWALWrites
    apply isSome_mxLookup_mxSet
    unfold collectTXIDWraparound
    apply isSome_mxLookup_foldColumnValues
    unfold collectUptime
    rw [mxLookup_mxSet_self]
    rfl
  · unfold collectWALWrites
    rw [mxLookup_mxSet_self]
    rfl

/-- Witness for C3 at a concrete cycle whose WAL-file query fails. -/
theorem metric_failure_returns_partial_snapshot_witness :
    (collect pFresh 10 dbWalFilesFail).err = some Stage.walFiles ∧
    ∃ m, (collect pFresh 10 dbWalFilesFail).mx = some m ∧
      (mxLookup m "server_connections_used").isSome ∧
      (mxLookup m "checkpoints_timed").isSome ∧
      (mxLookup m "server_uptime").isSome := by
  obtain ⟨he, _, _, m, hmx, hc, hk, hu, _⟩ :=
    metric_failure_returns_partial_snapshot pFresh 10 dbWalFilesFail
      [("server_connections_used", "10")] [("checkpoints_timed", "5")]
      [("oldest_current_xid", "9")] "120" 7
      rfl (by decide) (by decide) (by decide) (by decide) rfl rfl rfl rfl rfl rfl
  exact ⟨he, m, hmx, hc "server_connections_used" "10" (by decide),
    hk "checkpoints_timed" "5" (by decide), hu⟩

end Postgres
